import Mathlib

/-!
Shallow embedding of `src/joss/temp/temp.py`, a script that loads three
serialized sparse matrices from an `npz` directory next to the script,
renders each as a sparsity ("spy") plot, and saves one PNG per matrix
into a `graphics` sibling directory one level up.

The filesystem is modelled explicitly (an association list of paths to
file contents plus a set of existing writable directories), the script's
loop is a fold that threads the filesystem state and records a trace of
the side-effecting calls (`np.load`, `plt.figure`, `plt.spy`,
`plt.axis`, `plt.savefig`, `plt.close`), and failures of the underlying
libraries are modelled as the three error kinds the spec names.
-/

namespace Temp

/-- Filesystem paths, as lists of path segments. -/
abbrev Path := List String

/-- One explicitly stored entry of a serialized sparse matrix:
a (row, column) coordinate and the stored numeric value. -/
structure Entry where
  row : Nat
  col : Nat
  val : Int
deriving DecidableEq, Repr

/-- The decoded content of a serialized sparse-matrix archive: the shape
and the list of explicitly stored entries, in the file's own order. -/
structure RawNpz where
  rows : Nat
  cols : Nat
  entries : List Entry
deriving DecidableEq, Repr

/-- A rendered sparsity image, abstracted as the list of marked pixel
positions (one mark per plotted matrix coordinate). -/
abbrev Image := List (Nat × Nat)

/-- Contents a file in the model can hold: a decodable sparse-matrix
archive, undecodable bytes, or a rendered PNG image. -/
inductive FileContent where
  | npz (raw : RawNpz)
  | invalid
  | png (img : Image)
deriving DecidableEq, Repr

/-- Filesystem state: files (path to content) and the set of existing
writable directories. -/
structure FS where
  files : List (Path × FileContent)
  dirs : List Path
deriving DecidableEq

/-- Read the content stored at a path, if any. -/
def FS.read (fs : FS) (p : Path) : Option FileContent :=
  (fs.files.find? fun e => e.1 == p).map fun e => e.2

/-- Write content at a path, replacing any previous content there
(reads take the most recent entry for a path). -/
def FS.write (fs : FS) (p : Path) (c : FileContent) : FS :=
  ⟨(p, c) :: fs.files, fs.dirs⟩

/-- The directory holding the script: `WD = Path(__file__).parent`. -/
def WD : Path := ["src", "joss", "temp"]

/-- The source directory: `SRC_DIR = WD / "npz"`. -/
def SRC_DIR : Path := WD ++ ["npz"]

/-- The destination directory: `DST_DIR = WD.parent / "graphics"`. -/
def DST_DIR : Path := WD.dropLast ++ ["graphics"]

/-- The hardcoded name sequence of the script's loop. -/
def names : List String := ["A", "A_min", "A_rec"]

/-- Path of the serialized input for a name: `SRC_DIR / f"\x7bname\x7d.npz"`. -/
def npzPath (n : String) : Path := SRC_DIR ++ [n ++ ".npz"]

/-- Path of the rendered output for a name: `DST_DIR / f"\x7bname\x7d.png"`. -/
def pngPath (n : String) : Path := DST_DIR ++ [n ++ ".png"]

/-- The three error kinds of the spec's taxonomy, each carrying the
failing name (the underlying Python exceptions carry the failing path
in their message). -/
inductive Err where
  | missingInput (name : String)
  | decodeError (name : String)
  | ioError (name : String)
deriving DecidableEq, Repr

/-- The failing name identified by a diagnostic. -/
def Err.name : Err → String
  | .missingInput n => n
  | .decodeError n => n
  | .ioError n => n

/-- The side-effecting calls the script makes for a name, in the order
the source makes them. -/
inductive Event where
  | load (n : String)
  | figure (n : String)
  | spyPlot (n : String)
  | axisOff (n : String)
  | save (n : String)
  | close (n : String)
deriving DecidableEq, Repr

/-- The full event block of one successful loop iteration. -/
def block (n : String) : List Event :=
  [.load n, .figure n, .spyPlot n, .axisOff n, .save n, .close n]

/-- The load step `np.load(SRC_DIR / f"\x7bname\x7d.npz")`: raises (here: returns) a
missing-input error when the file is absent and a decode error when it
is not a valid sparse-matrix archive. -/
def np_load (fs : FS) (n : String) : Except Err RawNpz :=
  match fs.read (npzPath n) with
  | none => .error (.missingInput n)
  | some (.npz raw) => .ok raw
  | some _ => .error (.decodeError n)

/-- Column-major order on stored entries (ties broken by row, then by
stored value), the order compressed-sparse-column storage uses. -/
def entryLe (a b : Entry) : Bool :=
  decide (a.col < b.col ∨ (a.col = b.col ∧
    (a.row < b.row ∨ (a.row = b.row ∧ a.val ≤ b.val))))

/-- The conversion step `sp.csc_array(...)`: canonicalize the decoded matrix into
compressed-sparse-column form, i.e. put the stored entries into
column-major order regardless of the order the file listed them in. -/
def csc_array (raw : RawNpz) : RawNpz :=
  ⟨raw.rows, raw.cols, raw.entries.mergeSort entryLe⟩

/-- The render step `plt.spy(mat, precision=0, ms=4, c="black")`: mark one pixel
position per stored entry whose absolute value exceeds `precision`. -/
def spy (m : RawNpz) (precision : Int) : Image :=
  (m.entries.filter fun e => decide (precision < (e.val.natAbs : Int))).map
    fun e => (e.row, e.col)

/-- The save step `plt.savefig(DST_DIR / f"\x7bname\x7d.png", ...)`: write the image when
the destination directory exists and is writable, otherwise raise
(here: return) an I/O error. `savefig` never creates the directory. -/
def savefig (fs : FS) (n : String) (img : Image) : Except Err FS :=
  if DST_DIR ∈ fs.dirs then .ok (fs.write (pngPath n) (.png img))
  else .error (.ioError n)

/-- Outcome of running (part of) the script: the filesystem at the end
or at the abort point, the trace of calls made, and the first error. -/
structure RunResult where
  fs : FS
  trace : List Event
  err : Option Err
deriving DecidableEq

/-- One iteration of the script's loop for one name: load, convert to
CSC, render, save, close. The first failing step aborts the iteration;
no error is caught. -/
def processName (fs : FS) (n : String) : RunResult :=
  match np_load fs n with
  | .error e => ⟨fs, [], some e⟩
  | .ok raw =>
    let mat := csc_array raw
    let img := spy mat 0
    match savefig fs n img with
    | .error e => ⟨fs, [.load n, .figure n, .spyPlot n, .axisOff n], some e⟩
    | .ok fs' => ⟨fs', block n, none⟩

/-- The script's loop over a name sequence: strictly sequential, and the
first error aborts the whole remaining run. -/
def renderAll (fs : FS) : List String → RunResult
  | [] => ⟨fs, [], none⟩
  | n :: rest =>
    let r := processName fs n
    match r.err with
    | some e => ⟨r.fs, r.trace, some e⟩
    | none =>
      let r2 := renderAll r.fs rest
      ⟨r2.fs, r.trace ++ r2.trace, r2.err⟩

/-- The whole script: the loop over the three hardcoded names. -/
def run (fs : FS) : RunResult := renderAll fs names

/-- A name is good in a filesystem when its serialized input is present
and decodable. -/
def isNpz : Option FileContent → Bool
  | some (.npz _) => true
  | _ => false

/-- A run input is good when every name's serialized matrix is present
and decodable and the destination directory exists and is writable. -/
def goodInput (fs : FS) : Prop :=
  (∀ n ∈ names, isNpz (fs.read (npzPath n)) = true) ∧ DST_DIR ∈ fs.dirs

instance (fs : FS) : Decidable (goodInput fs) := by
  unfold goodInput; infer_instance

/-- The error `np.load` / `sp.csc_array` raise on a failing input file:
a missing-file error when there is no file, a decode error when the
bytes are not a valid sparse-matrix archive. -/
def loadFailure (o : Option FileContent) (n : String) : Err :=
  match o with
  | none => .missingInput n
  | some _ => .decodeError n

/-- The expected trace of completely processing a list of names. -/
def blocks : List String → List Event
  | [] => []
  | n :: rest => block n ++ blocks rest

/-- What a successful pass over the names `ns` does to the filesystem:
directories untouched, every path other than the names' png paths
unchanged, every name's png path now holding a png, and any pre-existing
png file still a png file. -/
def OnlyPngs (fs fs' : FS) (ns : List String) : Prop :=
  fs'.dirs = fs.dirs ∧
  (∀ p : Path, (∀ n ∈ ns, p ≠ pngPath n) → fs'.read p = fs.read p) ∧
  (∀ n ∈ ns, ∃ img, fs'.read (pngPath n) = some (.png img)) ∧
  (∀ p : Path, (∃ img, fs.read p = some (.png img)) →
    ∃ img, fs'.read p = some (.png img))

instance : IsAntisymm Entry (fun a b => entryLe a b = true) :=
  ⟨fun a b h1 h2 => by
    cases a; cases b
    simp only [entryLe, decide_eq_true_eq] at h1 h2
    simp only [Entry.mk.injEq]
    omega⟩

/-- Concrete 5×5 sparse matrix with non-zeros at (0,0), (2,3), (4,4)
(the spec's scenario matrix), entries listed in one order. -/
def rawEx : RawNpz := ⟨5, 5, [⟨0, 0, 1⟩, ⟨2, 3, 1⟩, ⟨4, 4, 1⟩]⟩

/-- The same matrix with its stored entries listed in another order. -/
def rawExShuffled : RawNpz := ⟨5, 5, [⟨4, 4, 1⟩, ⟨0, 0, 1⟩, ⟨2, 3, 1⟩]⟩

/-- A 3×3 matrix whose only stored entry holds the value zero. -/
def rawZero : RawNpz := ⟨3, 3, [⟨1, 1, 0⟩]⟩

/-- A fully dense 2×2 matrix. -/
def rawDense : RawNpz := ⟨2, 2, [⟨0, 0, 1⟩, ⟨0, 1, 2⟩, ⟨1, 0, 3⟩, ⟨1, 1, 4⟩]⟩

/-- A filesystem holding all three inputs and the writable destination
directory. -/
def fsGood : FS :=
  ⟨[(npzPath "A", .npz rawEx), (npzPath "A_min", .npz rawExShuffled),
    (npzPath "A_rec", .npz rawDense)], [DST_DIR]⟩

/-- A filesystem in which the first input file is absent. -/
def fsMissing : FS := ⟨[], [DST_DIR]⟩

/-- A filesystem in which the first input file is present but not a
valid sparse-matrix archive. -/
def fsInvalid : FS := ⟨[(npzPath "A", .invalid)], [DST_DIR]⟩

/-- A filesystem with a valid first input but no destination
directory. -/
def fsNoDir : FS := ⟨[(npzPath "A", .npz rawEx)], []⟩

/-- A filesystem in which the second name's input file is absent but
the first name's input is fine. -/
def fsMidFail : FS := ⟨[(npzPath "A", .npz rawEx)], [DST_DIR]⟩

/-! ### Basic filesystem lemmas -/

theorem FS.read_write_self (fs : FS) (p : Path) (c : FileContent) :
    (fs.write p c).read p = some c := by
  simp [FS.read, FS.write]

theorem FS.read_write_ne (fs : FS) {p q : Path} (c : FileContent) (h : q ≠ p) :
    (fs.write p c).read q = fs.read q := by
  unfold FS.read FS.write
  rw [List.find?_cons_of_neg _ (by simpa using fun hc => h hc.symm)]

theorem FS.dirs_write (fs : FS) (p : Path) (c : FileContent) :
    (fs.write p c).dirs = fs.dirs := rfl

/-! ### Path facts -/

theorem npzPath_ne_pngPath (n m : String) : npzPath n ≠ pngPath m := by
  intro h
  simp [npzPath, pngPath, SRC_DIR, DST_DIR, WD] at h

theorem pngPath_inj {n m : String} (h : pngPath n = pngPath m) : n = m := by
  simp only [pngPath, DST_DIR, WD] at h
  have h2 : n ++ ".png" = m ++ ".png" := by
    simpa using h
  have h3 : (n ++ ".png").data = (m ++ ".png").data := by rw [h2]
  simp only [String.data_append] at h3
  exact String.ext (List.append_cancel_right h3)

/-! ### The column-major order is a total order on entries -/

theorem entryLe_trans (a b c : Entry) (h1 : entryLe a b) (h2 : entryLe b c) :
    entryLe a c := by
  simp only [entryLe, decide_eq_true_eq] at h1 h2 ⊢
  omega

theorem entryLe_total (a b : Entry) : entryLe a b || entryLe b a := by
  simp only [entryLe, Bool.or_eq_true, decide_eq_true_eq]
  omega

theorem sorted_mergeSort_entryLe (l : List Entry) :
    List.Sorted (fun a b => entryLe a b = true) (l.mergeSort entryLe) := by
  simpa using
    List.sorted_mergeSort (fun a b c => entryLe_trans a b c) entryLe_total l

theorem mergeSort_entryLe_eq_of_perm {l1 l2 : List Entry} (h : l1.Perm l2) :
    l1.mergeSort entryLe = l2.mergeSort entryLe :=
  List.eq_of_perm_of_sorted
    ((List.mergeSort_perm l1 _).trans (h.trans (List.mergeSort_perm l2 _).symm))
    (sorted_mergeSort_entryLe l1) (sorted_mergeSort_entryLe l2)

theorem filter_mergeSort_entryLe (p : Entry → Bool) (l : List Entry) :
    (l.mergeSort entryLe).filter p = (l.filter p).mergeSort entryLe :=
  List.eq_of_perm_of_sorted
    (((List.mergeSort_perm l _).filter p).trans
      (List.mergeSort_perm (l.filter p) _).symm)
    ((sorted_mergeSort_entryLe l).sublist (List.filter_sublist _))
    (sorted_mergeSort_entryLe (l.filter p))

/-! ### What `csc_array` and `spy` do -/

theorem csc_array_entries_perm (raw : RawNpz) :
    (csc_array raw).entries.Perm raw.entries :=
  List.mergeSort_perm raw.entries entryLe

theorem csc_array_sorted (raw : RawNpz) :
    List.Sorted (fun a b => entryLe a b = true) (csc_array raw).entries :=
  sorted_mergeSort_entryLe raw.entries

theorem csc_array_eq_of_perm {r1 r2 : RawNpz} (hr : r1.rows = r2.rows)
    (hc : r1.cols = r2.cols) (h : r1.entries.Perm r2.entries) :
    csc_array r1 = csc_array r2 := by
  simp only [csc_array, hr, hc, mergeSort_entryLe_eq_of_perm h]

theorem mem_spy (m : RawNpz) (prec : Int) (i j : Nat) :
    (i, j) ∈ spy m prec ↔
      ∃ e ∈ m.entries, e.row = i ∧ e.col = j ∧ prec < (e.val.natAbs : Int) := by
  simp only [spy, List.mem_map, List.mem_filter, decide_eq_true_eq, Prod.mk.injEq]
  constructor
  · rintro ⟨e, ⟨he, hv⟩, hi, hj⟩
    exact ⟨e, he, hi, hj, hv⟩
  · rintro ⟨e, he, hi, hj, hv⟩
    exact ⟨e, ⟨he, hv⟩, hi, hj⟩

theorem mem_spy_csc (raw : RawNpz) (i j : Nat) :
    (i, j) ∈ spy (csc_array raw) 0 ↔
      ∃ e ∈ raw.entries, e.row = i ∧ e.col = j ∧ e.val ≠ 0 := by
  rw [mem_spy]
  constructor
  · rintro ⟨e, he, hi, hj, hv⟩
    exact ⟨e, (csc_array_entries_perm raw).mem_iff.mp he, hi, hj, by omega⟩
  · rintro ⟨e, he, hi, hj, hv⟩
    refine ⟨e, (csc_array_entries_perm raw).mem_iff.mpr he, hi, hj, ?_⟩
    have := Int.natAbs_pos.mpr hv
    omega

theorem spy_csc_eq_of_perm {r1 r2 : RawNpz} (h : r1.entries.Perm r2.entries)
    (prec : Int) : spy (csc_array r1) prec = spy (csc_array r2) prec := by
  simp only [spy, csc_array, mergeSort_entryLe_eq_of_perm h]

/-! ### Characterizing one loop iteration -/

theorem processName_ok {fs : FS} {n : String} {raw : RawNpz}
    (h : fs.read (npzPath n) = some (.npz raw)) (hd : DST_DIR ∈ fs.dirs) :
    processName fs n =
      ⟨fs.write (pngPath n) (.png (spy (csc_array raw) 0)), block n, none⟩ := by
  simp [processName, np_load, h, savefig, hd]

theorem processName_missing {fs : FS} {n : String}
    (h : fs.read (npzPath n) = none) :
    processName fs n = ⟨fs, [], some (.missingInput n)⟩ := by
  simp [processName, np_load, h]

theorem processName_invalid {fs : FS} {n : String}
    (h : fs.read (npzPath n) = some .invalid) :
    processName fs n = ⟨fs, [], some (.decodeError n)⟩ := by
  simp [processName, np_load, h]

theorem processName_nodir {fs : FS} {n : String} {raw : RawNpz}
    (h : fs.read (npzPath n) = some (.npz raw)) (hd : DST_DIR ∉ fs.dirs) :
    processName fs n =
      ⟨fs, [.load n, .figure n, .spyPlot n, .axisOff n], some (.ioError n)⟩ := by
  simp [processName, np_load, h, savefig, hd]

/-! ### Runs over a list of names -/

theorem processName_load_fail {fs : FS} {n : String}
    (h : isNpz (fs.read (npzPath n)) = false) :
    processName fs n = ⟨fs, [], some (loadFailure (fs.read (npzPath n)) n)⟩ := by
  unfold processName np_load loadFailure
  cases hr : fs.read (npzPath n) with
  | none => rfl
  | some c =>
    cases c with
    | npz raw => rw [hr] at h; simp [isNpz] at h
    | invalid => rfl
    | png i => rfl

theorem processName_dirs (fs : FS) (n : String) :
    (processName fs n).fs.dirs = fs.dirs := by
  unfold processName
  cases np_load fs n with
  | error e => rfl
  | ok raw =>
    unfold savefig
    by_cases h : DST_DIR ∈ fs.dirs
    · simp [h, FS.write]
    · simp [h]

theorem renderAll_dirs : ∀ (ns : List String) (fs : FS),
    (renderAll fs ns).fs.dirs = fs.dirs
  | [], _ => rfl
  | n :: rest, fs => by
    simp only [renderAll]
    cases h : (processName fs n).err with
    | some e => exact processName_dirs fs n
    | none =>
      simp only [h]
      rw [renderAll_dirs rest _]
      exact processName_dirs fs n

theorem renderAll_append_good :
    ∀ (pre : List String) (fs : FS) (tail : List String),
    (∀ n ∈ pre, isNpz (fs.read (npzPath n)) = true) → DST_DIR ∈ fs.dirs →
    ∃ fs', OnlyPngs fs fs' pre ∧
      (∀ n ∈ tail, fs'.read (npzPath n) = fs.read (npzPath n)) ∧
      renderAll fs (pre ++ tail) =
        ⟨(renderAll fs' tail).fs, blocks pre ++ (renderAll fs' tail).trace,
          (renderAll fs' tail).err⟩ := by
  intro pre
  induction pre with
  | nil =>
    intro fs tail _ _
    refine ⟨fs, ⟨rfl, fun _ _ => rfl, by simp, fun p h => h⟩,
      fun _ _ => rfl, ?_⟩
    simp [blocks]
  | cons n pre' ih =>
    intro fs tail hgood hd
    have hn : isNpz (fs.read (npzPath n)) = true := hgood n (by simp)
    obtain ⟨raw, hraw⟩ : ∃ raw, fs.read (npzPath n) = some (.npz raw) := by
      cases hread : fs.read (npzPath n) with
      | none => rw [hread] at hn; simp [isNpz] at hn
      | some c =>
        cases c with
        | npz raw => exact ⟨raw, rfl⟩
        | invalid => rw [hread] at hn; simp [isNpz] at hn
        | png img => rw [hread] at hn; simp [isNpz] at hn
    set fs1 := fs.write (pngPath n) (.png (spy (csc_array raw) 0)) with hfs1
    have hstep := processName_ok hraw hd
    have hread1 : ∀ m : String, fs1.read (npzPath m) = fs.read (npzPath m) :=
      fun m => FS.read_write_ne fs _ (npzPath_ne_pngPath m n)
    have hgood1 : ∀ m ∈ pre', isNpz (fs1.read (npzPath m)) = true := by
      intro m hm; rw [hread1 m]; exact hgood m (by simp [hm])
    have hd1 : DST_DIR ∈ fs1.dirs := hd
    obtain ⟨fs', honly, htail, hrun⟩ := ih fs1 tail hgood1 hd1
    obtain ⟨hdirs, hother, hpngs, hkeep⟩ := honly
    refine ⟨fs', ⟨?_, ?_, ?_, ?_⟩, ?_, ?_⟩
    · rw [hdirs]; rfl
    · intro p hp
      rw [hother p fun m hm => hp m (by simp [hm])]
      exact FS.read_write_ne fs _ (hp n (by simp))
    · intro m hm
      rcases List.mem_cons.mp hm with h | h
      · subst h
        exact hkeep _ ⟨_, FS.read_write_self fs _ _⟩
      · exact hpngs m h
    · intro p hp
      refine hkeep p ?_
      by_cases hpq : p = pngPath n
      · subst hpq; exact ⟨_, FS.read_write_self fs _ _⟩
      · rw [FS.read_write_ne fs _ hpq]; exact hp
    · intro m hm
      rw [htail m hm]; exact hread1 m
    · show renderAll fs (n :: (pre' ++ tail)) = _
      simp only [renderAll, hstep, hrun]
      simp [blocks]

/-- A successful pass over `ns`: no error, trace is the concatenation of
the names' blocks in order, and the filesystem changes are exactly the
names' png files. -/
theorem renderAll_good (ns : List String) (fs : FS)
    (hgood : ∀ n ∈ ns, isNpz (fs.read (npzPath n)) = true)
    (hd : DST_DIR ∈ fs.dirs) :
    ∃ fs', OnlyPngs fs fs' ns ∧ renderAll fs ns = ⟨fs', blocks ns, none⟩ := by
  obtain ⟨fs', honly, _, hrun⟩ := renderAll_append_good ns fs [] hgood hd
  refine ⟨fs', honly, ?_⟩
  rw [show ns ++ [] = ns from List.append_nil ns] at hrun
  simpa [renderAll] using hrun

/-! ### The claims -/

/-- C1: in every run in which all input names load, decode, render, and
save successfully, the run finishes without error, exactly one output
file is written per input name at `DST_DIR/<name>.png` (one save event
per name), no other path's content changes, and for the reference name
sequence these are three distinct output paths. -/
theorem C1_one_output_per_name (fs : FS) (h : goodInput fs) :
    (run fs).err = none ∧
    (∀ n ∈ names, ∃ img, (run fs).fs.read (pngPath n) = some (.png img)) ∧
    (∀ p : Path, p ∉ names.map pngPath → (run fs).fs.read p = fs.read p) ∧
    (∀ n ∈ names, (run fs).trace.count (Event.save n) = 1) ∧
    (names.map pngPath).length = 3 ∧ (names.map pngPath).Nodup := by
  obtain ⟨fs', ⟨hdirs, hother, hpngs, hkeep⟩, hrun⟩ :=
    renderAll_good names fs h.1 h.2
  refine ⟨?_, ?_, ?_, ?_, by decide, by decide⟩
  · simp only [run, hrun]
  · intro n hn
    simp only [run, hrun]
    exact hpngs n hn
  · intro p hp
    simp only [run, hrun]
    exact hother p fun n hn heq => hp (List.mem_map.mpr ⟨n, hn, heq.symm⟩)
  · intro n hn
    simp only [run, hrun]
    fin_cases hn <;> decide

/-- C2: the first load/decode failure aborts the run with that name's
error, every earlier name's output file is on disk, no file is written
for the failing name, no other path changes, and the trace stops at the
end of the last successful name (nothing runs for later names). -/
theorem C2_abort_on_first_failure (fs : FS) (pre post : List String)
    (bad : String)
    (hgood : ∀ n ∈ pre, isNpz (fs.read (npzPath n)) = true)
    (hd : DST_DIR ∈ fs.dirs)
    (hbad : isNpz (fs.read (npzPath bad)) = false) :
    (renderAll fs (pre ++ bad :: post)).err =
      some (loadFailure (fs.read (npzPath bad)) bad) ∧
    (∀ n ∈ pre, ∃ img,
      (renderAll fs (pre ++ bad :: post)).fs.read (pngPath n) =
        some (.png img)) ∧
    (renderAll fs (pre ++ bad :: post)).fs.read (pngPath bad) =
      fs.read (pngPath bad) ∧
    (∀ p : Path, (∀ n ∈ pre, p ≠ pngPath n) →
      (renderAll fs (pre ++ bad :: post)).fs.read p = fs.read p) ∧
    (renderAll fs (pre ++ bad :: post)).trace = blocks pre := by
  obtain ⟨fs', ⟨hdirs, hother, hpngs, hkeep⟩, htail, hrun⟩ :=
    renderAll_append_good pre fs (bad :: post) hgood hd
  have hb' : fs'.read (npzPath bad) = fs.read (npzPath bad) :=
    htail bad (by simp)
  have hbad' : isNpz (fs'.read (npzPath bad)) = false := by
    rw [hb']; exact hbad
  have hfail := processName_load_fail hbad'
  rw [hb'] at hfail
  have hrest : renderAll fs' (bad :: post) =
      ⟨fs', [], some (loadFailure (fs.read (npzPath bad)) bad)⟩ := by
    simp [renderAll, hfail]
  rw [hrest] at hrun
  have hnotpre : bad ∉ pre := by
    intro hmem
    have := hgood bad hmem
    rw [hbad] at this
    exact Bool.false_ne_true this
  refine ⟨?_, ?_, ?_, ?_, ?_⟩
  · rw [hrun]
  · intro n hn
    rw [hrun]
    exact hpngs n hn
  · rw [hrun]
    refine hother _ fun n hn heq => ?_
    exact hnotpre (pngPath_inj heq ▸ hn)
  · intro p hp
    rw [hrun]
    exact hother p hp
  · rw [hrun]
    simp

/-- C3: the set of marked pixel positions of a rendered image is exactly
the loaded matrix's set of non-zero coordinates, and the rendered image
is a deterministic function of the stored-entry multiset: any
re-ordering of the stored entries renders to the identical image. -/
theorem C3_render_deterministic (r1 r2 : RawNpz)
    (h : r1.entries.Perm r2.entries) :
    (∀ i j : Nat, (i, j) ∈ spy (csc_array r1) 0 ↔
      ∃ e ∈ r1.entries, e.row = i ∧ e.col = j ∧ e.val ≠ 0) ∧
    spy (csc_array r1) 0 = spy (csc_array r2) 0 :=
  ⟨fun i j => mem_spy_csc r1 i j, spy_csc_eq_of_perm h 0⟩

/-- C4: each deserialized matrix is canonicalized to compressed-sparse-
column form (entries in column-major order, a permutation of the stored
entries) before rendering, the rendered file holds exactly the image of
the canonicalized matrix, and so the output is independent of the
serialized format's original entry order. -/
theorem C4_csc_before_render (r1 r2 : RawNpz) (fs : FS) (n : String)
    (hr : r1.rows = r2.rows) (hc : r1.cols = r2.cols)
    (h : r1.entries.Perm r2.entries)
    (hread : fs.read (npzPath n) = some (.npz r1))
    (hd : DST_DIR ∈ fs.dirs) :
    csc_array r1 = csc_array r2 ∧
    List.Sorted (fun a b => entryLe a b = true) (csc_array r1).entries ∧
    (csc_array r1).entries.Perm r1.entries ∧
    (processName fs n).fs.read (pngPath n) =
      some (.png (spy (csc_array r1) 0)) ∧
    spy (csc_array r1) 0 = spy (csc_array r2) 0 := by
  refine ⟨csc_array_eq_of_perm hr hc h, csc_array_sorted r1,
    csc_array_entries_perm r1, ?_, spy_csc_eq_of_perm h 0⟩
  rw [processName_ok hread hd]
  exact FS.read_write_self fs _ _

/-- C5: the names are processed strictly sequentially in input order:
the run's trace is the concatenation of the per-name blocks, i.e. each
earlier name's load/figure/render/save/close cycle completes before the
next name's cycle begins. -/
theorem C5_sequential_order (fs : FS) (h : goodInput fs) :
    (run fs).trace = blocks names ∧
    blocks names =
      [.load "A", .figure "A", .spyPlot "A", .axisOff "A", .save "A",
       .close "A",
       .load "A_min", .figure "A_min", .spyPlot "A_min", .axisOff "A_min",
       .save "A_min", .close "A_min",
       .load "A_rec", .figure "A_rec", .spyPlot "A_rec", .axisOff "A_rec",
       .save "A_rec", .close "A_rec"] := by
  obtain ⟨fs', _, hrun⟩ := renderAll_good names fs h.1 h.2
  exact ⟨by simp only [run, hrun], by decide⟩

/-- C6: the run signals three distinguishable error kinds — a missing
input file, an undecodable input file, an unwritable destination — and
the diagnostic carries the failing name. -/
theorem C6_error_taxonomy (fs1 fs2 fs3 : FS) (raw : RawNpz)
    (h1 : fs1.read (npzPath "A") = none)
    (h2 : fs2.read (npzPath "A") = some .invalid)
    (h3 : fs3.read (npzPath "A") = some (.npz raw))
    (hd3 : DST_DIR ∉ fs3.dirs) :
    (run fs1).err = some (.missingInput "A") ∧
    (run fs2).err = some (.decodeError "A") ∧
    (run fs3).err = some (.ioError "A") ∧
    (run fs1).err.map Err.name = some "A" ∧
    (run fs2).err.map Err.name = some "A" ∧
    (run fs3).err.map Err.name = some "A" ∧
    (∀ n m : String, Err.missingInput n ≠ Err.decodeError m ∧
      Err.missingInput n ≠ Err.ioError m ∧
      Err.decodeError n ≠ Err.ioError m) := by
  have e1 : (run fs1).err = some (.missingInput "A") := by
    simp [run, names, renderAll, processName_missing h1]
  have e2 : (run fs2).err = some (.decodeError "A") := by
    simp [run, names, renderAll, processName_invalid h2]
  have e3 : (run fs3).err = some (.ioError "A") := by
    simp [run, names, renderAll, processName_nodir h3 hd3]
  refine ⟨e1, e2, e3, ?_, ?_, ?_, ?_⟩
  · rw [e1]; rfl
  · rw [e2]; rfl
  · rw [e3]; rfl
  · intro n m
    refine ⟨?_, ?_, ?_⟩ <;> intro hcontra <;> cases hcontra

/-- C7: the configuration is hardcoded: the name sequence is exactly
`["A", "A_min", "A_rec"]`, the source directory is the `npz`
subdirectory of the script's own directory with each input at
`SRC_DIR/<name>.npz`, the destination directory is the `graphics`
sibling folder one level up from the script's directory, and the run is
the loop over exactly these names. -/
theorem C7_hardcoded_config :
    names = ["A", "A_min", "A_rec"] ∧
    SRC_DIR = WD ++ ["npz"] ∧
    DST_DIR = WD.dropLast ++ ["graphics"] ∧
    (∀ n : String, npzPath n = SRC_DIR ++ [n ++ ".npz"]) ∧
    (∀ n : String, pngPath n = DST_DIR ++ [n ++ ".png"]) ∧
    (∀ fs : FS, run fs = renderAll fs ["A", "A_min", "A_rec"]) :=
  ⟨rfl, rfl, rfl, fun _ => rfl, fun _ => rfl, fun _ => rfl⟩

/-- C8: a loaded matrix with zero non-zero entries renders as a blank
image with no marks, and a fully dense matrix renders with a mark at
every coordinate of its full extent. -/
theorem C8_blank_and_dense (r0 rd : RawNpz)
    (h0 : ∀ e ∈ r0.entries, e.val = 0)
    (hd : ∀ i : Nat, i < rd.rows → ∀ j : Nat, j < rd.cols →
      ∃ e ∈ rd.entries, e.row = i ∧ e.col = j ∧ e.val ≠ 0) :
    spy (csc_array r0) 0 = [] ∧
    (∀ i : Nat, i < rd.rows → ∀ j : Nat, j < rd.cols →
      (i, j) ∈ spy (csc_array rd) 0) := by
  constructor
  · apply List.eq_nil_iff_forall_not_mem.mpr
    rintro ⟨i, j⟩ hx
    rw [mem_spy_csc] at hx
    obtain ⟨e, he, _, _, hv⟩ := hx
    exact hv (h0 e he)
  · intro i hi j hj
    rw [mem_spy_csc]
    exact hd i hi j hj

/-- C9: with `precision=0` a pixel is marked iff the corresponding
stored entry's absolute value is strictly greater than zero, so an
explicitly stored zero entry produces no mark and the image is
identical to the one of the matrix with all stored zeros removed. -/
theorem C9_precision_zero_strict (raw : RawNpz) :
    (∀ i j : Nat, (i, j) ∈ spy (csc_array raw) 0 ↔
      ∃ e ∈ raw.entries, e.row = i ∧ e.col = j ∧ 0 < e.val.natAbs) ∧
    spy (csc_array ⟨raw.rows, raw.cols,
      raw.entries.filter fun e => !(e.val == 0)⟩) 0 =
      spy (csc_array raw) 0 := by
  constructor
  · intro i j
    rw [mem_spy_csc]
    constructor
    · rintro ⟨e, he, hi, hj, hv⟩
      exact ⟨e, he, hi, hj, Int.natAbs_pos.mpr hv⟩
    · rintro ⟨e, he, hi, hj, hv⟩
      exact ⟨e, he, hi, hj, Int.natAbs_pos.mp hv⟩
  · simp only [spy, csc_array]
    congr 1
    rw [filter_mergeSort_entryLe, filter_mergeSort_entryLe]
    congr 1
    rw [List.filter_filter]
    refine List.filter_congr fun e _ => ?_
    by_cases hz : e.val = 0
    · simp [hz]
    · simp [hz]

/-- C10: the script never creates the destination directory; when it is
absent, the first name's save fails with an I/O error after its load,
figure, render and axis steps ran, and no file at all is written. -/
theorem C10_dest_dir_never_created (fs fs0 : FS) (raw : RawNpz)
    (h : fs.read (npzPath "A") = some (.npz raw))
    (hd : DST_DIR ∉ fs.dirs) :
    (run fs).err = some (.ioError "A") ∧
    (run fs).fs = fs ∧
    (run fs).trace = [.load "A", .figure "A", .spyPlot "A", .axisOff "A"] ∧
    (run fs0).fs.dirs = fs0.dirs := by
  have hp := processName_nodir h hd
  refine ⟨?_, ?_, ?_, renderAll_dirs names fs0⟩ <;>
    simp [run, names, renderAll, hp]

/-! ### Concrete witnesses -/

theorem C1_witness :
    goodInput fsGood ∧
    ((run fsGood).err = none ∧
     (∀ n ∈ names, ∃ img,
       (run fsGood).fs.read (pngPath n) = some (.png img)) ∧
     (∀ p : Path, p ∉ names.map pngPath →
       (run fsGood).fs.read p = fsGood.read p) ∧
     (∀ n ∈ names, (run fsGood).trace.count (Event.save n) = 1) ∧
     (names.map pngPath).length = 3 ∧ (names.map pngPath).Nodup) :=
  ⟨by decide, C1_one_output_per_name fsGood (by decide)⟩

theorem C2_witness :
    (∀ n ∈ ["A"], isNpz (fsMidFail.read (npzPath n)) = true) ∧
    DST_DIR ∈ fsMidFail.dirs ∧
    isNpz (fsMidFail.read (npzPath "A_min")) = false ∧
    ((renderAll fsMidFail (["A"] ++ "A_min" :: ["A_rec"])).err =
      some (loadFailure (fsMidFail.read (npzPath "A_min")) "A_min") ∧
     (∀ n ∈ ["A"], ∃ img,
       (renderAll fsMidFail (["A"] ++ "A_min" :: ["A_rec"])).fs.read
         (pngPath n) = some (.png img)) ∧
     (renderAll fsMidFail (["A"] ++ "A_min" :: ["A_rec"])).fs.read
       (pngPath "A_min") = fsMidFail.read (pngPath "A_min") ∧
     (∀ p : Path, (∀ n ∈ ["A"], p ≠ pngPath n) →
       (renderAll fsMidFail (["A"] ++ "A_min" :: ["A_rec"])).fs.read p =
         fsMidFail.read p) ∧
     (renderAll fsMidFail (["A"] ++ "A_min" :: ["A_rec"])).trace =
       blocks ["A"]) :=
  ⟨by decide, by decide, by decide,
    C2_abort_on_first_failure fsMidFail ["A"] ["A_rec"] "A_min"
      (by decide) (by decide) (by decide)⟩

theorem C3_witness :
    rawEx.entries.Perm rawExShuffled.entries ∧
    ((∀ i j : Nat, (i, j) ∈ spy (csc_array rawEx) 0 ↔
       ∃ e ∈ rawEx.entries, e.row = i ∧ e.col = j ∧ e.val ≠ 0) ∧
     spy (csc_array rawEx) 0 = spy (csc_array rawExShuffled) 0) :=
  ⟨by decide, C3_render_deterministic rawEx rawExShuffled (by decide)⟩

theorem C4_witness :
    rawEx.rows = rawExShuffled.rows ∧ rawEx.cols = rawExShuffled.cols ∧
    rawEx.entries.Perm rawExShuffled.entries ∧
    fsGood.read (npzPath "A") = some (.npz rawEx) ∧
    DST_DIR ∈ fsGood.dirs ∧
    (csc_array rawEx = csc_array rawExShuffled ∧
     List.Sorted (fun a b => entryLe a b = true) (csc_array rawEx).entries ∧
     (csc_array rawEx).entries.Perm rawEx.entries ∧
     (processName fsGood "A").fs.read (pngPath "A") =
       some (.png (spy (csc_array rawEx) 0)) ∧
     spy (csc_array rawEx) 0 = spy (csc_array rawExShuffled) 0) :=
  ⟨rfl, rfl, by decide, by decide, by decide,
    C4_csc_before_render rawEx rawExShuffled fsGood "A" rfl rfl
      (by decide) (by decide) (by decide)⟩

theorem C5_witness :
    goodInput fsGood ∧
    ((run fsGood).trace = blocks names ∧
     blocks names =
      [.load "A", .figure "A", .spyPlot "A", .axisOff "A", .save "A",
       .close "A",
       .load "A_min", .figure "A_min", .spyPlot "A_min", .axisOff "A_min",
       .save "A_min", .close "A_min",
       .load "A_rec", .figure "A_rec", .spyPlot "A_rec", .axisOff "A_rec",
       .save "A_rec", .close "A_rec"]) :=
  ⟨by decide, C5_sequential_order fsGood (by decide)⟩

theorem C6_witness :
    fsMissing.read (npzPath "A") = none ∧
    fsInvalid.read (npzPath "A") = some .invalid ∧
    fsNoDir.read (npzPath "A") = some (.npz rawEx) ∧
    DST_DIR ∉ fsNoDir.dirs ∧
    ((run fsMissing).err = some (.missingInput "A") ∧
     (run fsInvalid).err = some (.decodeError "A") ∧
     (run fsNoDir).err = some (.ioError "A") ∧
     (run fsMissing).err.map Err.name = some "A" ∧
     (run fsInvalid).err.map Err.name = some "A" ∧
     (run fsNoDir).err.map Err.name = some "A" ∧
     (∀ n m : String, Err.missingInput n ≠ Err.decodeError m ∧
       Err.missingInput n ≠ Err.ioError m ∧
       Err.decodeError n ≠ Err.ioError m)) :=
  ⟨by decide, by decide, by decide, by decide,
    C6_error_taxonomy fsMissing fsInvalid fsNoDir rawEx
      (by decide) (by decide) (by decide) (by decide)⟩

theorem C8_witness :
    (∀ e ∈ rawZero.entries, e.val = 0) ∧
    (∀ i : Nat, i < rawDense.rows → ∀ j : Nat, j < rawDense.cols →
      ∃ e ∈ rawDense.entries, e.row = i ∧ e.col = j ∧ e.val ≠ 0) ∧
    (spy (csc_array rawZero) 0 = [] ∧
     (∀ i : Nat, i < rawDense.rows → ∀ j : Nat, j < rawDense.cols →
       (i, j) ∈ spy (csc_array rawDense) 0)) :=
  ⟨by decide, by decide,
    C8_blank_and_dense rawZero rawDense (by decide) (by decide)⟩

theorem C10_witness :
    fsNoDir.read (npzPath "A") = some (.npz rawEx) ∧
    DST_DIR ∉ fsNoDir.dirs ∧
    ((run fsNoDir).err = some (.ioError "A") ∧
     (run fsNoDir).fs = fsNoDir ∧
     (run fsNoDir).trace =
       [.load "A", .figure "A", .spyPlot "A", .axisOff "A"] ∧
     (run fsGood).fs.dirs = fsGood.dirs) :=
  ⟨by decide, by decide,
    C10_dest_dir_never_created fsNoDir fsGood rawEx (by decide) (by decide)⟩

end Temp
